import Mathlib

/-!
Shallow embedding of `ProcessJobRunner`
(src/python/kubeflow/trainer/job_runners/process_job_runner.py) from the
kubeflow sdk repository: job status derivation, command building, the process
environment, and the registry operations `create_job`, `get_job`, `list_jobs`,
`get_job_logs` (non-follow path) and `delete_job`, together with theorems
checking the specification's claims against these definitions.

Python values are embedded as follows: strings are `String`, Python `int` is
`Int` (or `Nat` where the source only ever passes non-negative values, such as
`num_nodes` and spawn-time ranks), lists are `List`, and insertion-ordered
dictionaries are association lists `List (key × value)` whose lookup takes the
most recent binding (`envLookup` / `dictGet` below).  A `subprocess.Popen`
handle is embedded as its observable state `ProcState` (`poll()` returning
`None` versus a final `returncode`).  Raised `RuntimeError`s and the uncaught
`IndexError` become constructors of `RunnerError`, and operations that raise
return `Except RunnerError`.
-/

set_option autoImplicit false

/-- Modelled from the spec: the `types.Framework` enum is declared outside the
runner module (its source is not part of this embedding); the runner only
references the members `TORCH` and `TORCHTUNE`, and per the spec "any other
framework value is a configuration error"; every other member is represented
by the `other` constructor. -/
inductive Framework where
  | torch
  | torchtune
  | other (name : String)
  deriving DecidableEq, Repr

/-- Observable state of one spawned OS process: `running` while
`subprocess.Popen.poll()` returns `None`, otherwise `terminated` with the
process's final `returncode`. -/
inductive ProcState where
  | running
  | terminated (returncode : Int)
  deriving DecidableEq, Repr

/-- One container entry as produced by `get_job` (`types.Container`): a name
and a status string. -/
structure Container where
  name : String
  status : String
  deriving DecidableEq, Repr

/-- Embedding of `ProcessJobRunner._get_process_status` (process_job_runner.py
lines 386-393): `running` while `poll()` is `None`, `exited` on return code 0,
`failed` on any other return code. -/
def getProcessStatus : ProcState → String
  | .running => "running"
  | .terminated c => if c == 0 then "exited" else "failed"

/-- Embedding of `ProcessJobRunner._get_job_status` (lines 395-409): `pending`
for an empty container list, then in the source's branch order: all `exited`
gives `succeeded`, any `failed` gives `failed`, any `running` gives `running`,
otherwise `pending`. -/
def getJobStatus (containers : List Container) : String :=
  if containers.isEmpty then "pending"
  else
    let statuses := containers.map (fun c => c.status)
    if statuses.all (fun s => s == "exited") then "succeeded"
    else if statuses.any (fun s => s == "failed") then "failed"
    else if statuses.any (fun s => s == "running") then "running"
    else "pending"

/-- Modelled from the spec: the job status aggregation in the order the spec
states it (spec section 4.4) — `pending` on an empty list, else `failed` if any
node status is `failed`, else `running` if any is `running`, else `succeeded`
if all are `exited`.  Defined only to be compared with `getJobStatus`, which
follows the source's branch order. -/
def deriveJobStatusSpec (statuses : List String) : String :=
  if statuses.isEmpty then "pending"
  else if statuses.any (fun s => s == "failed") then "failed"
  else if statuses.any (fun s => s == "running") then "running"
  else if statuses.all (fun s => s == "exited") then "succeeded"
  else "pending"

/-- C1. The source's aggregation (`all exited` checked first) agrees with the
spec's stated precedence (`failed`, then `running`, then `succeeded`) on every
list of node statuses drawn from the set `running`, `exited`, `failed`; in
particular a job with node statuses running and failed reports `failed`,
running and exited reports `running`, exited twice reports `succeeded`, and an
empty node list reports `pending`. -/
theorem job_status_aggregation_matches_spec :
    (∀ cs : List Container,
      (∀ c ∈ cs, c.status = "running" ∨ c.status = "exited" ∨ c.status = "failed") →
      getJobStatus cs = deriveJobStatusSpec (cs.map (fun c => c.status))) ∧
    getJobStatus [⟨"n-0", "running"⟩, ⟨"n-1", "failed"⟩] = "failed" ∧
    getJobStatus [⟨"n-0", "running"⟩, ⟨"n-1", "exited"⟩] = "running" ∧
    getJobStatus [⟨"n-0", "exited"⟩, ⟨"n-1", "exited"⟩] = "succeeded" ∧
    getJobStatus [] = "pending" := by
  refine ⟨?_, by decide, by decide, by decide, rfl⟩
  intro cs h
  cases cs with
  | nil => rfl
  | cons c0 cs' =>
    simp only [getJobStatus, deriveJobStatusSpec]
    simp
    by_cases hfail : c0.status = "failed" ∨ ∃ a ∈ cs', a.status = "failed"
    · have hnall : ¬(c0.status = "exited" ∧ ∀ a ∈ cs', a.status = "exited") := by
        rintro ⟨hc0, hall⟩
        rcases hfail with h1 | ⟨a, ha, h1⟩
        · rw [h1] at hc0
          exact absurd hc0 (by decide)
        · have hae := hall a ha
          rw [h1] at hae
          exact absurd hae (by decide)
      simp [hfail, hnall]
    · by_cases hrun : c0.status = "running" ∨ ∃ a ∈ cs', a.status = "running"
      · have hnall : ¬(c0.status = "exited" ∧ ∀ a ∈ cs', a.status = "exited") := by
          rintro ⟨hc0, hall⟩
          rcases hrun with h1 | ⟨a, ha, h1⟩
          · rw [h1] at hc0
            exact absurd hc0 (by decide)
          · have hae := hall a ha
            rw [h1] at hae
            exact absurd hae (by decide)
        simp [hfail, hrun, hnall]
      · have hall : c0.status = "exited" ∧ ∀ a ∈ cs', a.status = "exited" := by
          constructor
          · rcases h c0 (by simp) with h1 | h1 | h1
            · exact absurd (Or.inl h1) hrun
            · exact h1
            · exact absurd (Or.inl h1) hfail
          · intro a ha
            rcases h a (by simp [ha]) with h1 | h1 | h1
            · exact absurd (Or.inr ⟨a, ha, h1⟩) hrun
            · exact h1
            · exact absurd (Or.inr ⟨a, ha, h1⟩) hfail
        have hnf : ¬∃ a ∈ cs', a.status = "failed" := by
          rintro ⟨a, ha, h1⟩
          exact hfail (Or.inr ⟨a, ha, h1⟩)
        have hnr : ¬∃ a ∈ cs', a.status = "running" := by
          rintro ⟨a, ha, h1⟩
          exact hrun (Or.inr ⟨a, ha, h1⟩)
        simp [hall.1, hall.2, hnf, hnr]

/-- Witness for C1 at a concrete status list containing all three values. -/
theorem job_status_aggregation_matches_spec_witness :
    getJobStatus [⟨"a-0", "running"⟩, ⟨"a-1", "exited"⟩, ⟨"a-2", "failed"⟩] =
      deriveJobStatusSpec ["running", "exited", "failed"] :=
  job_status_aggregation_matches_spec.1
    [⟨"a-0", "running"⟩, ⟨"a-1", "exited"⟩, ⟨"a-2", "failed"⟩] (by decide)

/-- Modelled from the spec: `constants.LOCAL_TRAIN_JOB_NAME_PREFIX`, the fixed
string prefixed to the generated job-name suffix (spec section 3, "generated at
creation time with a fixed prefix plus a random/sequential suffix"); the
constants module is outside the embedded source, so the concrete value is a
representative one. -/
def localTrainJobPrefixStr : String := "local-"

/-- Modelled from the spec: `constants.CONTAINER_TRAIN_JOB_NAME_LABEL`, the
environment key naming the job (one of the "two job-identifying environment
variables" of spec section 4.1); the constants module is outside the embedded
source, so the concrete value is a representative one. -/
def CONTAINER_TRAIN_JOB_NAME_LABEL : String := "trainjob-name"

/-- Modelled from the spec: `constants.LOCAL_NODE_RANK_LABEL`, the environment
key naming the node rank (the second "job-identifying environment variable" of
spec section 4.1); the constants module is outside the embedded source, so the
concrete value is a representative one. -/
def LOCAL_NODE_RANK_LABEL : String := "node-rank"

/-- Modelled from the spec: `constants.NODE`, the default `step` argument of
`get_job_logs`; the constants module is outside the embedded source, so the
concrete value is a representative one. -/
def NODE_STEP : String := "node"

/-- Lookup in an insertion-ordered association list with Python `dict`
assignment semantics: the most recent binding of a key wins. -/
def dictGet {α : Type} : List (String × α) → String → Option α
  | [], _ => none
  | (k, v) :: rest, key =>
    match dictGet rest key with
    | some v' => some v'
    | none => if k == key then some v else none

/-- Python `dict` assignment `d[key] = v`: replace the binding in place if the
key is present, otherwise append the new binding at the end. -/
def dictSet {α : Type} (d : List (String × α)) (key : String) (v : α) :
    List (String × α) :=
  if (d.find? (fun p => p.1 == key)).isSome then
    d.map (fun p => if p.1 == key then (key, v) else p)
  else d ++ [(key, v)]

/-- Python `dict.update(upd)`: assign every binding of `upd` in order. -/
def dictSetAll {α : Type} (d upd : List (String × α)) : List (String × α) :=
  upd.foldl (fun acc kv => dictSet acc kv.1 kv.2) d

/-- Python `del d[key]`. -/
def dictRemove {α : Type} (d : List (String × α)) (key : String) :
    List (String × α) :=
  d.filter (fun p => p.1 != key)

/-- Embedding of `ProcessJobRunner._get_process_environment` (lines 358-384):
for the TORCH framework, the eight distributed-training variables in the
source's insertion order; for every framework, the two job-identifying
variables are assigned afterwards. -/
def getProcessEnvironment (framework : Framework) (headNodeAddress : String)
    (numNodes nodeRank : Nat) (trainJobName : String) :
    List (String × String) :=
  (if framework = Framework.torch then
    [("NNODES", toString numNodes),
     ("NPROC_PER_NODE", "1"),
     ("NODE_RANK", toString nodeRank),
     ("MASTER_ADDR", headNodeAddress),
     ("MASTER_PORT", "29500"),
     ("RANK", toString nodeRank),
     ("LOCAL_RANK", "0"),
     ("WORLD_SIZE", toString numNodes)]
  else []) ++
  [(CONTAINER_TRAIN_JOB_NAME_LABEL, trainJobName),
   (LOCAL_NODE_RANK_LABEL, toString nodeRank)]

/-- C3. For a torch job the framework environment of each rank `r` below `N`
binds NNODES to `N`, NPROC_PER_NODE to 1, NODE_RANK and RANK to `r`,
LOCAL_RANK to 0, WORLD_SIZE to `N`, MASTER_ADDR to localhost and MASTER_PORT
to 29500, and for every framework the two job-identifying variables (job name
and node rank) are always bound. -/
theorem process_environment_contract :
    (∀ (numNodes nodeRank : Nat) (trainJobName : String), nodeRank < numNodes →
      dictGet (getProcessEnvironment .torch "localhost" numNodes nodeRank trainJobName)
          "NNODES" = some (toString numNodes) ∧
      dictGet (getProcessEnvironment .torch "localhost" numNodes nodeRank trainJobName)
          "NPROC_PER_NODE" = some "1" ∧
      dictGet (getProcessEnvironment .torch "localhost" numNodes nodeRank trainJobName)
          "NODE_RANK" = some (toString nodeRank) ∧
      dictGet (getProcessEnvironment .torch "localhost" numNodes nodeRank trainJobName)
          "RANK" = some (toString nodeRank) ∧
      dictGet (getProcessEnvironment .torch "localhost" numNodes nodeRank trainJobName)
          "LOCAL_RANK" = some "0" ∧
      dictGet (getProcessEnvironment .torch "localhost" numNodes nodeRank trainJobName)
          "WORLD_SIZE" = some (toString numNodes) ∧
      dictGet (getProcessEnvironment .torch "localhost" numNodes nodeRank trainJobName)
          "MASTER_ADDR" = some "localhost" ∧
      dictGet (getProcessEnvironment .torch "localhost" numNodes nodeRank trainJobName)
          "MASTER_PORT" = some "29500") ∧
    (∀ (framework : Framework) (numNodes nodeRank : Nat) (trainJobName : String),
      dictGet (getProcessEnvironment framework "localhost" numNodes nodeRank trainJobName)
          CONTAINER_TRAIN_JOB_NAME_LABEL = some trainJobName ∧
      dictGet (getProcessEnvironment framework "localhost" numNodes nodeRank trainJobName)
          LOCAL_NODE_RANK_LABEL = some (toString nodeRank)) := by
  constructor
  · intro numNodes nodeRank trainJobName _
    exact ⟨rfl, rfl, rfl, rfl, rfl, rfl, rfl, rfl⟩
  · intro framework numNodes nodeRank trainJobName
    cases framework <;> exact ⟨rfl, rfl⟩

/-- Witness for C3 at `numNodes = 2`, `nodeRank = 1`. -/
theorem process_environment_contract_witness :
    dictGet (getProcessEnvironment .torch "localhost" 2 1 "job-a") "NNODES" =
      some (toString 2) ∧
    dictGet (getProcessEnvironment .torchtune "localhost" 2 1 "job-a")
      LOCAL_NODE_RANK_LABEL = some (toString 1) :=
  ⟨(process_environment_contract.1 2 1 "job-a" (by decide)).1,
   (process_environment_contract.2 .torchtune 2 1 "job-a").2⟩

/-- Python `str.strip()` whitespace set: space, tab, newline, carriage return,
vertical tab, form feed. -/
def pySpace (c : Char) : Bool :=
  c == ' ' || c == '\t' || c == '\n' || c == '\r' || c == '\x0b' || c == '\x0c'

/-- Python `str.strip()`: drop leading and trailing whitespace. -/
def pyStrip (s : String) : String :=
  ⟨((s.data.dropWhile pySpace).reverse.dropWhile pySpace).reverse⟩

/-- Python `needle in hay` on strings: substring containment. -/
def strContainsSub (hay needle : String) : Bool :=
  (List.range (hay.data.length + 1)).any
    (fun i => needle.data.isPrefixOf (hay.data.drop i))

/-- Embedding of `ProcessJobRunner._build_torchrun_command` (lines 170-189):
the module-style interpreter invocation of `torch.distributed.run` with one
process per node, the node count, the node's rank, the loopback master address
and port 29500, followed by the original command tokens.  The source's
`entrypoint` parameter is accepted and unused, as in the source. -/
def buildTorchrunCommand (pythonExecutable : String)
    (entrypoint command : List String) (numNodes nodeRank : Nat) :
    List String :=
  let _ := entrypoint
  [pythonExecutable, "-m", "torch.distributed.run",
   "--nproc_per_node=1",
   "--nnodes=" ++ toString numNodes,
   "--node_rank=" ++ toString nodeRank,
   "--master_addr=localhost",
   "--master_port=29500"] ++ command

/-- Embedding of the command-shape dispatch in
`ProcessJobRunner._start_node_process` (lines 129-145): a wrapped
`bash -c` script referencing `torchrun` has the token `torchrun "` textually
replaced with the module-style interpreter invocation; a bare `torchrun`
entrypoint is rebuilt via `buildTorchrunCommand`; a `.py` script command is
prefixed with the interpreter; anything else is passed through as
`entrypoint + command`. -/
def startNodeCommand (pythonExecutable : String)
    (entrypoint command : List String) (numNodes nodeRank : Nat) :
    List String :=
  let c0 := command.headD ""
  if entrypoint ≠ [] ∧ entrypoint = ["bash", "-c"] ∧ command ≠ [] ∧
      (pyStrip c0).startsWith "read -r -d" ∧ strContainsSub c0 "torchrun" then
    ["bash", "-c",
     c0.replace "torchrun \"" (pythonExecutable ++ " -m torch.distributed.run \"")]
  else if entrypoint ≠ [] ∧ entrypoint.headD "" = "torchrun" ∧ command ≠ [] then
    buildTorchrunCommand pythonExecutable entrypoint command numNodes nodeRank
  else if entrypoint ≠ [] ∧ command ≠ [] ∧ c0.endsWith ".py" then
    [pythonExecutable] ++ command
  else
    entrypoint ++ command

/-- Embedding of the pure part of `ProcessJobRunner._start_node_process`
(lines 108-145): the argv produced by the command-shape dispatch together with
the process environment, namely the ambient OS environment updated with the
framework environment (lines 118-127). -/
def startNodeBuild (pythonExecutable trainJobName : String)
    (osEnv : List (String × String)) (entrypoint command : List String)
    (framework : Framework) (numNodes nodeRank : Nat) :
    List String × List (String × String) :=
  (startNodeCommand pythonExecutable entrypoint command numNodes nodeRank,
   dictSetAll osEnv
     (getProcessEnvironment framework "localhost" numNodes nodeRank trainJobName))

/-- C4. A bare `torchrun` entrypoint with a non-empty command is rebuilt as
the module-style interpreter invocation carrying exactly the flags
`--nproc_per_node=1`, `--nnodes=N`, `--node_rank=r`, `--master_addr=localhost`,
`--master_port=29500`, followed by the original command tokens. -/
theorem torchrun_command_rebuild (pythonExecutable : String)
    (entrypoint command : List String) (numNodes nodeRank : Nat)
    (hhead : entrypoint.headD "" = "torchrun")
    (hene : entrypoint ≠ []) (hcne : command ≠ []) :
    startNodeCommand pythonExecutable entrypoint command numNodes nodeRank =
      [pythonExecutable, "-m", "torch.distributed.run",
       "--nproc_per_node=1",
       "--nnodes=" ++ toString numNodes,
       "--node_rank=" ++ toString nodeRank,
       "--master_addr=localhost",
       "--master_port=29500"] ++ command := by
  simp only [startNodeCommand]
  split
  · rename_i hcond
    obtain ⟨-, h2, -⟩ := hcond
    rw [h2] at hhead
    exact absurd hhead (by decide)
  · split
    · rfl
    · rename_i hcond2
      exact absurd ⟨hene, hhead, hcne⟩ hcond2

/-- Witness for C4: the spec's scenario, a bare torchrun entrypoint at
`num_nodes = 2`, `rank = 1`. -/
theorem torchrun_command_rebuild_witness :
    startNodeCommand "python" ["torchrun"] ["train.py"] 2 1 =
      ["python", "-m", "torch.distributed.run",
       "--nproc_per_node=1", "--nnodes=2", "--node_rank=1",
       "--master_addr=localhost", "--master_port=29500", "train.py"] := by
  have h := torchrun_command_rebuild "python" ["torchrun"] ["train.py"] 2 1 rfl
    (by decide) (by decide)
  simpa using h

/-- C5. The command builder is deterministic: two invocations with equal
entrypoint, command, framework, node count and rank (under the same runner
configuration, generated job name and ambient OS environment) produce the same
argv and the same environment. -/
theorem command_builder_deterministic (pythonExecutable trainJobName : String)
    (osEnv : List (String × String)) (e e' c c' : List String)
    (f f' : Framework) (n n' r r' : Nat)
    (he : e = e') (hc : c = c') (hf : f = f') (hn : n = n') (hr : r = r') :
    startNodeBuild pythonExecutable trainJobName osEnv e c f n r =
      startNodeBuild pythonExecutable trainJobName osEnv e' c' f' n' r' := by
  subst he hc hf hn hr
  rfl

/-- Witness for C5 at a concrete pair of equal inputs. -/
theorem command_builder_deterministic_witness :
    startNodeBuild "python" "job-a" [("PATH", "/usr/bin")]
        ["torchrun"] ["train.py"] .torch 2 1 =
      startNodeBuild "python" "job-a" [("PATH", "/usr/bin")]
        ["torchrun"] ["train.py"] .torch 2 1 :=
  command_builder_deterministic "python" "job-a" [("PATH", "/usr/bin")]
    ["torchrun"] ["torchrun"] ["train.py"] ["train.py"] .torch .torch 2 2 1 1
    rfl rfl rfl rfl rfl

/-- Errors the runner raises: `RuntimeError`s from the three raise sites of
the source (unsupported framework at line 71, unknown job at lines 193, 229
and 336, unknown node rank at line 234) plus the uncaught `IndexError` that
Python list indexing raises for an index below `-len`. -/
inductive RunnerError where
  | unsupportedFramework (framework : Framework)
  | jobNotFound (name : String)
  | nodeRankNotFound (nodeRank : Int) (name : String)
  | indexError
  deriving DecidableEq, Repr

/-- Observable OS side effects of the runner: creating the job directory,
opening a capture file, spawning a node process, and delivering a signal to a
node's process group (the signalled process is identified by its node rank). -/
inductive Effect where
  | mkdir (path : String)
  | openFile (path : String)
  | spawn (argv : List String) (env : List (String × String)) (cwd : String)
  | killpg (nodeRank : Nat) (sig : String)
  deriving DecidableEq, Repr

/-- One entry of a job's `processes` list (lines 162-168): the process handle
(embedded as its observable state), the node rank, the two capture-file paths
and the cached status string. -/
structure ProcessInfo where
  proc : ProcState
  nodeRank : Nat
  stdoutFile : String
  stderrFile : String
  status : String
  deriving DecidableEq, Repr

/-- One value of `self._active_jobs` (lines 80-89). -/
structure JobRecord where
  creationTimestamp : Nat
  runtimeName : String
  image : String
  processes : List ProcessInfo
  numNodes : Nat
  framework : Framework
  jobDir : String
  status : String
  deriving DecidableEq, Repr

/-- The mutable state of a `ProcessJobRunner` instance (lines 41-59):
configuration fixed at construction plus the two registries. -/
structure RunnerState where
  workingDir : String
  pythonExecutable : String
  activeJobs : List (String × JobRecord)
  jobLogs : List (String × List (String × String))
  deriving DecidableEq, Repr

/-- The `types.ContainerJob` value returned by `get_job` (lines 213-219). -/
structure ContainerJob where
  name : String
  creationTimestamp : Nat
  runtimeName : String
  containers : List Container
  status : String
  deriving DecidableEq, Repr

/-- Embedding of `ProcessJobRunner._start_node_process` (lines 108-168): the
argv and merged environment from `startNodeBuild`, the two capture files named
by rank inside the job directory, the spawn of the process (initially
running), and the returned process-info record with cached status Running. -/
def startNodeProcess (pythonExecutable trainJobName : String)
    (nodeRank numNodes : Nat) (entrypoint command : List String)
    (framework : Framework) (jobDir : String)
    (osEnv : List (String × String)) : ProcessInfo × List Effect :=
  let build := startNodeBuild pythonExecutable trainJobName osEnv entrypoint
    command framework numNodes nodeRank
  let stdoutFile := jobDir ++ "/node-" ++ toString nodeRank ++ "-stdout.log"
  let stderrFile := jobDir ++ "/node-" ++ toString nodeRank ++ "-stderr.log"
  ({ proc := .running, nodeRank := nodeRank, stdoutFile := stdoutFile,
     stderrFile := stderrFile, status := "Running" },
   [.openFile stdoutFile, .openFile stderrFile, .spawn build.1 build.2 jobDir])

/-- Embedding of `ProcessJobRunner.create_job` (lines 61-106): reject an
unsupported framework before any side effect; otherwise create the job
directory, spawn one node process per rank in increasing order, and register
the job record (final cached status Running, as set at line 105) and its log
entry.  The generated name suffix (`utils.generate_train_job_name`, outside
the embedded source) and the ambient OS environment are explicit inputs. -/
def createJob (st : RunnerState) (genName : String)
    (osEnv : List (String × String)) (now : Nat) (image : String)
    (entrypoint command : List String) (numNodes : Nat)
    (framework : Framework) (runtimeName : String) :
    RunnerState × List Effect × Except RunnerError String :=
  if ¬(framework = Framework.torch ∨ framework = Framework.torchtune) then
    (st, [], .error (.unsupportedFramework framework))
  else
    let trainJobName := localTrainJobPrefixStr ++ genName
    let jobDir := st.workingDir ++ "/" ++ trainJobName
    let results := (List.range numNodes).map (fun nodeRank =>
      startNodeProcess st.pythonExecutable trainJobName nodeRank numNodes
        entrypoint command framework jobDir osEnv)
    let record : JobRecord :=
      { creationTimestamp := now, runtimeName := runtimeName, image := image,
        processes := results.map Prod.fst, numNodes := numNodes,
        framework := framework, jobDir := jobDir, status := "Running" }
    ({ st with activeJobs := dictSet st.activeJobs trainJobName record,
               jobLogs := dictSet st.jobLogs trainJobName [] },
     Effect.mkdir jobDir :: (results.map Prod.snd).flatten,
     .ok trainJobName)

/-- The container list `get_job` derives (lines 197-208): one container per
process, named by job name and index, with the freshly polled status. -/
def containersOf (jobName : String) (processes : List ProcessInfo) :
    List Container :=
  processes.enum.map (fun ip =>
    { name := jobName ++ "-" ++ toString ip.1,
      status := getProcessStatus ip.2.proc })

/-- Embedding of `ProcessJobRunner.get_job` (lines 191-219): not-found error
for an unregistered name, otherwise the freshly derived containers and job
status, with the cached per-process and per-job statuses written back into the
registry. -/
def getJob (st : RunnerState) (jobName : String) :
    Except RunnerError (ContainerJob × RunnerState) :=
  match dictGet st.activeJobs jobName with
  | none => .error (.jobNotFound jobName)
  | some jobInfo =>
    let containers := containersOf jobName jobInfo.processes
    let newProcesses := jobInfo.processes.map (fun x =>
      { x with status := getProcessStatus x.proc })
    let jobStatus := getJobStatus containers
    let jobInfo' :=
      { jobInfo with processes := newProcesses, status := jobStatus }
    .ok ({ name := jobName, creationTimestamp := jobInfo.creationTimestamp,
           runtimeName := jobInfo.runtimeName, containers := containers,
           status := jobStatus },
         { st with activeJobs := dictSet st.activeJobs jobName jobInfo' })

/-- Python list indexing `xs[i]`: non-negative indices are direct, negative
indices wrap from the end, and anything below `-len` is an `IndexError`
(`none`). -/
def pyIndex {α : Type} (xs : List α) (i : Int) : Option α :=
  if 0 ≤ i then xs.get? i.toNat
  else if -(xs.length : Int) ≤ i then xs.get? ((xs.length : Int) + i).toNat
  else none

/-- The log text `get_job_logs(follow=False)` builds for one node
(lines 246-263): the full stdout capture (empty when the file does not
exist), and when the stderr capture is non-empty, the stderr separator section
appended after it. -/
def combineNodeLogs (fs : String → Option String)
    (processInfo : ProcessInfo) : String :=
  let stdoutContent := (fs processInfo.stdoutFile).getD ""
  let stderrContent := (fs processInfo.stderrFile).getD ""
  if stderrContent ≠ "" then
    stdoutContent ++ "\n--- STDERR ---\n" ++ stderrContent
  else stdoutContent

/-- Embedding of `ProcessJobRunner.get_job_logs` with `follow=False`
(lines 221-270): not-found errors for an unknown job or a rank at or above the
process count, then Python list indexing (negative ranks wrap, below `-len`
raises `IndexError`), then the combined log text under the key
`step-node_rank`.  The file system is an explicit input mapping a path to its
content; the follow path (concurrent tailing) is outside this embedding.  The
returned state is the unchanged registry state, mirroring that the method
writes neither registry. -/
def getJobLogsNoFollow (st : RunnerState) (fs : String → Option String)
    (jobName step : String) (nodeRank : Int) :
    Except RunnerError (List (String × String)) × RunnerState :=
  match dictGet st.activeJobs jobName with
  | none => (.error (.jobNotFound jobName), st)
  | some jobInfo =>
    if (jobInfo.processes.length : Int) ≤ nodeRank then
      (.error (.nodeRankNotFound nodeRank jobName), st)
    else
      match pyIndex jobInfo.processes nodeRank with
      | none => (.error .indexError, st)
      | some processInfo =>
        (.ok [(step ++ "-" ++ toString nodeRank,
               combineNodeLogs fs processInfo)], st)

/-- One iteration of the `list_jobs` loop (lines 328-331): look the name up,
apply the optional runtime filter, and append the result of `get_job`. -/
def listJobsStep (runtimeName : Option String)
    (acc : List ContainerJob × RunnerState) (jobName : String) :
    List ContainerJob × RunnerState :=
  match dictGet acc.2.activeJobs jobName with
  | none => acc
  | some jobInfo =>
    if runtimeName = none ∨ runtimeName = some jobInfo.runtimeName then
      match getJob acc.2 jobName with
      | .ok (job, st') => (acc.1 ++ [job], st')
      | .error _ => acc
    else acc

/-- Embedding of `ProcessJobRunner.list_jobs` (lines 323-332): fold the loop
body over the registry's key list. -/
def listJobs (st : RunnerState) (runtimeName : Option String) :
    List ContainerJob × RunnerState :=
  (st.activeJobs.map Prod.fst).foldl (listJobsStep runtimeName) ([], st)

/-- Embedding of `ProcessJobRunner.delete_job` (lines 334-356): not-found
error for an unregistered name; for every process still running, SIGTERM to
its process group and, unless it died within the grace period (the
`diedInGrace` oracle models the second `poll()` at line 348), SIGKILL;
processes already terminated are not signalled (signal-delivery errors are
swallowed at lines 351-352 and produce no effect in this embedding); finally
both registry entries are removed.  The doc comment above describes
`deleteJob` below; `deleteSignals` is its per-process helper. -/
def deleteSignals (diedInGrace : Nat → Bool)
    (processInfo : ProcessInfo) : List Effect :=
  match processInfo.proc with
  | .running =>
    Effect.killpg processInfo.nodeRank "SIGTERM" ::
      (if diedInGrace processInfo.nodeRank then []
       else [Effect.killpg processInfo.nodeRank "SIGKILL"])
  | .terminated _ => []

def deleteJob (st : RunnerState) (jobName : String)
    (diedInGrace : Nat → Bool) :
    RunnerState × List Effect × Except RunnerError Unit :=
  match dictGet st.activeJobs jobName with
  | none => (st, [], .error (.jobNotFound jobName))
  | some jobInfo =>
    let effects := (jobInfo.processes.map (deleteSignals diedInGrace)).flatten
    ({ st with activeJobs := dictRemove st.activeJobs jobName,
               jobLogs := dictRemove st.jobLogs jobName },
     effects, .ok ())

/-- Helper: flattening a map whose every image is empty yields the empty
list. -/
lemma flatten_map_eq_nil {α β : Type} (f : α → List β) (l : List α)
    (h : ∀ x ∈ l, f x = []) : (l.map f).flatten = [] := by
  induction l with
  | nil => rfl
  | cons a t ih =>
    simp only [List.map_cons, List.flatten_cons, h a (by simp),
      List.nil_append]
    exact ih (fun x hx => h x (by simp [hx]))

/-- Helper: after `del d[key]`, looking the key up yields nothing. -/
lemma dictGet_dictRemove_self {α : Type} (d : List (String × α))
    (key : String) : dictGet (dictRemove d key) key = none := by
  induction d with
  | nil => rfl
  | cons p rest ih =>
    obtain ⟨k, v⟩ := p
    unfold dictRemove at ih ⊢
    rw [List.filter_cons]
    by_cases h : (k != key) = true
    · rw [if_pos h]
      simp only [dictGet, ih]
      have hne : (k == key) = false := by
        simpa using h
      simp [hne]
    · rw [if_neg h]
      exact ih

/-- Helper: `del d[key]` leaves the lookup of every other key unchanged. -/
lemma dictGet_dictRemove_ne {α : Type} (d : List (String × α))
    (key other : String) (hne : other ≠ key) :
    dictGet (dictRemove d key) other = dictGet d other := by
  induction d with
  | nil => rfl
  | cons p rest ih =>
    obtain ⟨k, v⟩ := p
    unfold dictRemove at ih ⊢
    rw [List.filter_cons]
    by_cases h : (k != key) = true
    · rw [if_pos h]
      simp only [dictGet, ih]
    · rw [if_neg h]
      have hk : k = key := by
        simpa using h
      rw [ih]
      simp only [dictGet]
      have : (k == other) = false := by
        subst hk
        exact beq_false_of_ne (fun he => hne he.symm)
      cases hrest : dictGet rest other with
      | some w => rfl
      | none => simp [this]

/-- A sample registered job used by the concrete witnesses: a single node
whose process exited with code 0. -/
def sampleProcess : ProcessInfo :=
  { proc := .terminated 0, nodeRank := 0,
    stdoutFile := "/w/local-j/node-0-stdout.log",
    stderrFile := "/w/local-j/node-0-stderr.log",
    status := "Running" }

def sampleJob : JobRecord :=
  { creationTimestamp := 0, runtimeName := "rt", image := "img",
    processes := [sampleProcess], numNodes := 1, framework := .torch,
    jobDir := "/w/local-j", status := "Running" }

def sampleState : RunnerState :=
  { workingDir := "/w", pythonExecutable := "python",
    activeJobs := [("local-j", sampleJob)], jobLogs := [("local-j", [])] }

/-- A sample file system: the node's stdout capture holds `out`, its stderr
capture is empty. -/
def sampleFs : String → Option String := fun path =>
  if path == "/w/local-j/node-0-stdout.log" then some "out"
  else if path == "/w/local-j/node-0-stderr.log" then some ""
  else none

/-- Like `sampleFs` but with a non-empty stderr capture. -/
def sampleFsErr : String → Option String := fun path =>
  if path == "/w/local-j/node-0-stdout.log" then some "out"
  else if path == "/w/local-j/node-0-stderr.log" then some "err"
  else none

/-- C2. `create_job` with a framework that is neither TORCH nor TORCHTUNE
returns the configuration error with the runner state unchanged (no registry
entry, no log entry) and an empty effect list (no directory created, no file
opened, no process spawned). -/
theorem create_job_rejects_unsupported_framework (st : RunnerState)
    (genName : String) (osEnv : List (String × String)) (now : Nat)
    (image : String) (entrypoint command : List String) (numNodes : Nat)
    (framework : Framework) (runtimeName : String)
    (h1 : framework ≠ .torch) (h2 : framework ≠ .torchtune) :
    createJob st genName osEnv now image entrypoint command numNodes framework
      runtimeName = (st, [], .error (.unsupportedFramework framework)) := by
  have hcond : ¬(framework = Framework.torch ∨ framework = Framework.torchtune) := by
    rintro (h | h)
    · exact h1 h
    · exact h2 h
  simp [createJob, hcond]

/-- Witness for C2 at a concrete unsupported framework value. -/
theorem create_job_rejects_unsupported_framework_witness :
    createJob sampleState "abc" [] 0 "img" ["python"] ["train.py"] 2
      (.other "tensorflow") "rt" =
      (sampleState, [], .error (.unsupportedFramework (.other "tensorflow"))) :=
  create_job_rejects_unsupported_framework sampleState "abc" [] 0 "img"
    ["python"] ["train.py"] 2 (.other "tensorflow") "rt"
    (by decide) (by decide)

/-- C8. `delete_job` on a registered job whose processes have all terminated
returns without error, delivers no signal, removes the job's registry entries,
and a subsequent `get_job` on the name fails with the job-not-found error. -/
theorem delete_job_all_exited (st : RunnerState) (jobName : String)
    (jobInfo : JobRecord) (diedInGrace : Nat → Bool)
    (hjob : dictGet st.activeJobs jobName = some jobInfo)
    (hterm : ∀ processInfo ∈ jobInfo.processes,
      ∃ c, processInfo.proc = ProcState.terminated c) :
    deleteJob st jobName diedInGrace =
      ({ st with activeJobs := dictRemove st.activeJobs jobName,
                 jobLogs := dictRemove st.jobLogs jobName }, [], .ok ()) ∧
    getJob ({ st with activeJobs := dictRemove st.activeJobs jobName,
                      jobLogs := dictRemove st.jobLogs jobName }) jobName =
      .error (.jobNotFound jobName) := by
  constructor
  · simp only [deleteJob, hjob]
    have heff : (jobInfo.processes.map (deleteSignals diedInGrace)).flatten =
        ([] : List Effect) := by
      apply flatten_map_eq_nil
      intro x hx
      rcases hterm x hx with ⟨c, hc⟩
      simp [deleteSignals, hc]
    rw [heff]
  · simp only [getJob]
    rw [dictGet_dictRemove_self]

/-- Witness for C8 at the sample state (one node, exited 0). -/
theorem delete_job_all_exited_witness :
    deleteJob sampleState "local-j" (fun _ => false) =
      ({ workingDir := "/w", pythonExecutable := "python",
         activeJobs := [], jobLogs := [] }, [], .ok ()) ∧
    getJob ({ workingDir := "/w", pythonExecutable := "python",
               activeJobs := [], jobLogs := [] }) "local-j" =
      .error (.jobNotFound "local-j") :=
  delete_job_all_exited sampleState "local-j" sampleJob (fun _ => false) rfl
    (by
      intro x hx
      have hx' : x = sampleProcess := by
        simpa [sampleJob] using hx
      exact ⟨0, by rw [hx']; rfl⟩)

/-- C6. For a registered job and a valid rank, non-follow `get_job_logs`
returns a single mapping entry containing the full stdout capture: exactly the
stdout content (no stderr-separator section appended) when the stderr capture
is empty, and the stdout content, then one stderr-separator section, then the
stderr content when the stderr capture is non-empty. -/
theorem get_job_logs_no_follow_combines (st : RunnerState)
    (fs : String → Option String) (jobName step : String)
    (jobInfo : JobRecord) (r : Nat) (processInfo : ProcessInfo)
    (so se : String)
    (hjob : dictGet st.activeJobs jobName = some jobInfo)
    (hpi : jobInfo.processes.get? r = some processInfo)
    (hso : fs processInfo.stdoutFile = some so)
    (hse : fs processInfo.stderrFile = some se) :
    (se = "" → (getJobLogsNoFollow st fs jobName step (r : Int)).1 =
      .ok [(step ++ "-" ++ toString (r : Int), so)]) ∧
    (se ≠ "" → (getJobLogsNoFollow st fs jobName step (r : Int)).1 =
      .ok [(step ++ "-" ++ toString (r : Int),
            so ++ "\n--- STDERR ---\n" ++ se)]) := by
  have hr : r < jobInfo.processes.length := by
    by_contra hge
    rw [List.get?_eq_none.mpr (Nat.le_of_not_lt hge)] at hpi
    exact Option.noConfusion hpi
  have hnle : ¬((jobInfo.processes.length : Int) ≤ (r : Int)) := by
    omega
  have hidx : pyIndex jobInfo.processes (r : Int) = some processInfo := by
    unfold pyIndex
    rw [if_pos (by exact_mod_cast Nat.zero_le r)]
    simpa using hpi
  constructor
  · intro h0
    simp only [getJobLogsNoFollow, hjob, if_neg hnle, hidx]
    simp [combineNodeLogs, hso, hse, h0]
  · intro hne
    simp only [getJobLogsNoFollow, hjob, if_neg hnle, hidx]
    simp [combineNodeLogs, hso, hse, hne]

/-- Witness for C6 at the sample job: empty stderr capture, then non-empty
stderr capture. -/
theorem get_job_logs_no_follow_combines_witness :
    (getJobLogsNoFollow sampleState sampleFs "local-j" "node"
        ((0 : Nat) : Int)).1 =
      .ok [("node" ++ "-" ++ toString ((0 : Nat) : Int), "out")] ∧
    (getJobLogsNoFollow sampleState sampleFsErr "local-j" "node"
        ((0 : Nat) : Int)).1 =
      .ok [("node" ++ "-" ++ toString ((0 : Nat) : Int),
            "out" ++ "\n--- STDERR ---\n" ++ "err")] :=
  ⟨(get_job_logs_no_follow_combines sampleState sampleFs "local-j" "node"
      sampleJob 0 sampleProcess "out" "" rfl rfl rfl rfl).1 rfl,
   (get_job_logs_no_follow_combines sampleState sampleFsErr "local-j" "node"
      sampleJob 0 sampleProcess "out" "err" rfl rfl rfl rfl).2 (by decide)⟩

/-- C7 counterexample: a negative node rank is not rejected.  On the sample
job (one node), `get_job_logs(follow=False, node_rank=-1)` returns the last
node's logs under the key `node--1` instead of failing with a not-found
error. -/
theorem get_job_logs_negative_rank_accepted :
    (getJobLogsNoFollow sampleState sampleFs "local-j" "node" (-1)).1 =
      .ok [("node--1", "out")] := rfl

/-- C7 (amended). `get_job_logs` fails with the job-not-found error for a name
absent from the registry and with the rank-not-found error for every
`node_rank ≥ N`; a negative `node_rank` is not rejected: for
`-N ≤ node_rank < 0` it returns the logs of node `N + node_rank` (Python
negative indexing), and for `node_rank < -N` it raises an index error, not the
not-found error. -/
theorem get_job_logs_rank_validation (st : RunnerState)
    (fs : String → Option String) (jobName step : String) (nodeRank : Int) :
    (dictGet st.activeJobs jobName = none →
      (getJobLogsNoFollow st fs jobName step nodeRank).1 =
        .error (.jobNotFound jobName)) ∧
    (∀ jobInfo, dictGet st.activeJobs jobName = some jobInfo →
      ((jobInfo.processes.length : Int) ≤ nodeRank →
        (getJobLogsNoFollow st fs jobName step nodeRank).1 =
          .error (.nodeRankNotFound nodeRank jobName)) ∧
      (nodeRank < 0 → -(jobInfo.processes.length : Int) ≤ nodeRank →
        ∃ processInfo,
          jobInfo.processes.get?
              ((jobInfo.processes.length : Int) + nodeRank).toNat =
            some processInfo ∧
          (getJobLogsNoFollow st fs jobName step nodeRank).1 =
            .ok [(step ++ "-" ++ toString nodeRank,
                  combineNodeLogs fs processInfo)]) ∧
      (nodeRank < -(jobInfo.processes.length : Int) →
        (getJobLogsNoFollow st fs jobName step nodeRank).1 =
          .error .indexError)) := by
  constructor
  · intro h
    simp [getJobLogsNoFollow, h]
  · intro jobInfo hjob
    refine ⟨?_, ?_, ?_⟩
    · intro hle
      simp only [getJobLogsNoFollow, hjob, if_pos hle]
    · intro hneg hge
      have hlt : ((jobInfo.processes.length : Int) + nodeRank).toNat <
          jobInfo.processes.length := by omega
      obtain ⟨processInfo, hpi⟩ :
          ∃ x, jobInfo.processes.get?
              ((jobInfo.processes.length : Int) + nodeRank).toNat = some x := by
        cases hx : jobInfo.processes.get?
            ((jobInfo.processes.length : Int) + nodeRank).toNat with
        | some x => exact ⟨x, rfl⟩
        | none =>
          rw [List.get?_eq_none] at hx
          omega
      refine ⟨processInfo, hpi, ?_⟩
      have hnle : ¬((jobInfo.processes.length : Int) ≤ nodeRank) := by omega
      simp only [getJobLogsNoFollow, hjob, if_neg hnle, pyIndex,
        if_neg (by omega : ¬(0 ≤ nodeRank)), if_pos hge, hpi]
    · intro hlow
      have hnle : ¬((jobInfo.processes.length : Int) ≤ nodeRank) := by omega
      simp only [getJobLogsNoFollow, hjob, if_neg hnle, pyIndex,
        if_neg (by omega : ¬(0 ≤ nodeRank)),
        if_neg (by omega : ¬(-(jobInfo.processes.length : Int) ≤ nodeRank))]

/-- Witness for the amended C7: unknown job name, rank 5 on a one-node job,
and rank -2 on a one-node job. -/
theorem get_job_logs_rank_validation_witness :
    (getJobLogsNoFollow sampleState sampleFs "nope" "node" 0).1 =
      .error (.jobNotFound "nope") ∧
    (getJobLogsNoFollow sampleState sampleFs "local-j" "node" 5).1 =
      .error (.nodeRankNotFound 5 "local-j") ∧
    (getJobLogsNoFollow sampleState sampleFs "local-j" "node" (-2)).1 =
      .error .indexError :=
  ⟨(get_job_logs_rank_validation sampleState sampleFs "nope" "node" 0).1 rfl,
   ((get_job_logs_rank_validation sampleState sampleFs "local-j" "node"
      5).2 sampleJob rfl).1 (by decide),
   ((get_job_logs_rank_validation sampleState sampleFs "local-j" "node"
      (-2)).2 sampleJob rfl).2.2 (by decide)⟩

/-- Helper: a key that `dictGet` finds is found by `find?` as well. -/
lemma find?_isSome_of_dictGet {α : Type} (d : List (String × α))
    (key : String) (h : (dictGet d key).isSome = true) :
    (d.find? (fun p => p.1 == key)).isSome = true := by
  induction d with
  | nil => simp [dictGet] at h
  | cons p rest ih =>
    obtain ⟨k, w⟩ := p
    simp only [dictGet] at h
    by_cases hk : (k == key) = true
    · simp [List.find?_cons, hk]
    · have hrest : (dictGet rest key).isSome = true := by
        cases hget : dictGet rest key with
        | some v0 => rfl
        | none =>
          rw [hget] at h
          simp [hk] at h
      simp only [List.find?_cons]
      have hk' : (k == key) = false := by
        simpa using hk
      simp [hk']
      simpa using ih hrest

/-- Helper: assigning to an existing key leaves the key list unchanged. -/
lemma dictSet_keys_of_found {α : Type} (d : List (String × α)) (key : String)
    (v : α) (h : (d.find? (fun p => p.1 == key)).isSome = true) :
    (dictSet d key v).map Prod.fst = d.map Prod.fst := by
  unfold dictSet
  rw [if_pos h, List.map_map]
  apply List.map_congr_left
  intro p hp
  by_cases hk : (p.1 == key) = true
  · simp only [Function.comp_apply, if_pos hk]
    exact (eq_of_beq hk).symm
  · simp only [Function.comp_apply, if_neg hk]

/-- Helper: a successful `get_job` only rewrites the cached statuses of an
existing entry, so the registry's key list is unchanged. -/
lemma getJob_keys (st : RunnerState) (jobName : String) (job : ContainerJob)
    (st' : RunnerState) (h : getJob st jobName = .ok (job, st')) :
    st'.activeJobs.map Prod.fst = st.activeJobs.map Prod.fst := by
  cases hd : dictGet st.activeJobs jobName with
  | none => simp [getJob, hd] at h
  | some jobInfo =>
    simp only [getJob, hd] at h
    have h2 := congrArg
      (fun x : Except RunnerError (ContainerJob × RunnerState) =>
        match x with
        | .ok pr => pr.2
        | .error _ => st) h
    simp only at h2
    rw [← h2]
    exact dictSet_keys_of_found st.activeJobs jobName _
      (find?_isSome_of_dictGet st.activeJobs jobName (by rw [hd]; rfl))

/-- Helper: one `list_jobs` iteration preserves the registry's key list. -/
lemma listJobsStep_keys (runtimeName : Option String)
    (acc : List ContainerJob × RunnerState) (jobName : String) :
    (listJobsStep runtimeName acc jobName).2.activeJobs.map Prod.fst =
      acc.2.activeJobs.map Prod.fst := by
  unfold listJobsStep
  cases hd : dictGet acc.2.activeJobs jobName with
  | none => rfl
  | some jobInfo =>
    dsimp only
    by_cases hrt : runtimeName = none ∨ runtimeName = some jobInfo.runtimeName
    · rw [if_pos hrt]
      cases hg : getJob acc.2 jobName with
      | error e => rfl
      | ok pr =>
        obtain ⟨job, st'⟩ := pr
        exact getJob_keys acc.2 jobName job st' hg
    · rw [if_neg hrt]

/-- Helper: the whole `list_jobs` fold preserves the registry's key list. -/
lemma listJobs_foldl_keys (runtimeName : Option String) (ks : List String)
    (acc : List ContainerJob × RunnerState) :
    ((ks.foldl (listJobsStep runtimeName) acc).2).activeJobs.map Prod.fst =
      acc.2.activeJobs.map Prod.fst := by
  induction ks generalizing acc with
  | nil => rfl
  | cons k kt ih =>
    rw [List.foldl_cons, ih]
    exact listJobsStep_keys runtimeName acc k

/-- C10. The read operations `get_job`, `list_jobs` and `get_job_logs` never
add or remove registry entries (`get_job` and `list_jobs` keep the key list
unchanged, `get_job_logs` leaves the state untouched), and `delete_job`
removes exactly the named entry, leaving every other job's lookup
unchanged. -/
theorem read_ops_preserve_registry :
    (∀ (st : RunnerState) (jobName : String) (job : ContainerJob)
        (st' : RunnerState), getJob st jobName = .ok (job, st') →
      st'.activeJobs.map Prod.fst = st.activeJobs.map Prod.fst) ∧
    (∀ (st : RunnerState) (runtimeName : Option String),
      (listJobs st runtimeName).2.activeJobs.map Prod.fst =
        st.activeJobs.map Prod.fst) ∧
    (∀ (st : RunnerState) (fs : String → Option String)
        (jobName step : String) (nodeRank : Int),
      (getJobLogsNoFollow st fs jobName step nodeRank).2 = st) ∧
    (∀ (st : RunnerState) (jobName : String) (diedInGrace : Nat → Bool)
        (jobInfo : JobRecord), dictGet st.activeJobs jobName = some jobInfo →
      dictGet (deleteJob st jobName diedInGrace).1.activeJobs jobName =
        none ∧
      ∀ other, other ≠ jobName →
        dictGet (deleteJob st jobName diedInGrace).1.activeJobs other =
          dictGet st.activeJobs other) := by
  refine ⟨getJob_keys, ?_, ?_, ?_⟩
  · intro st runtimeName
    exact listJobs_foldl_keys runtimeName (st.activeJobs.map Prod.fst) ([], st)
  · intro st fs jobName step nodeRank
    cases hd : dictGet st.activeJobs jobName with
    | none => simp [getJobLogsNoFollow, hd]
    | some jobInfo =>
      simp only [getJobLogsNoFollow, hd]
      by_cases hle : (jobInfo.processes.length : Int) ≤ nodeRank
      · rw [if_pos hle]
      · rw [if_neg hle]
        cases hpi : pyIndex jobInfo.processes nodeRank with
        | none => rfl
        | some processInfo => rfl
  · intro st jobName diedInGrace jobInfo hjob
    simp only [deleteJob, hjob]
    exact ⟨dictGet_dictRemove_self st.activeJobs jobName,
      fun other hne => dictGet_dictRemove_ne st.activeJobs jobName other hne⟩

/-- The state a successful `get_job` on the sample returns. -/
def sampleGetJobSnd : RunnerState :=
  match getJob sampleState "local-j" with
  | .ok (_, st') => st'
  | .error _ => sampleState

/-- The job a successful `get_job` on the sample returns. -/
def sampleGetJobFst : ContainerJob :=
  match getJob sampleState "local-j" with
  | .ok (job, _) => job
  | .error _ =>
    { name := "", creationTimestamp := 0, runtimeName := "",
      containers := [], status := "" }

/-- Witness for C10 at the sample state. -/
theorem read_ops_preserve_registry_witness :
    sampleGetJobSnd.activeJobs.map Prod.fst =
      sampleState.activeJobs.map Prod.fst ∧
    (listJobs sampleState none).2.activeJobs.map Prod.fst =
      sampleState.activeJobs.map Prod.fst ∧
    (getJobLogsNoFollow sampleState sampleFs "local-j" "node" 0).2 =
      sampleState ∧
    dictGet (deleteJob sampleState "local-j" (fun _ => false)).1.activeJobs
      "local-j" = none :=
  ⟨read_ops_preserve_registry.1 sampleState "local-j" sampleGetJobFst
      sampleGetJobSnd rfl,
   read_ops_preserve_registry.2.1 sampleState none,
   read_ops_preserve_registry.2.2.1 sampleState sampleFs "local-j" "node" 0,
   (read_ops_preserve_registry.2.2.2 sampleState "local-j" (fun _ => false)
      sampleJob rfl).1⟩

/-- One step of an OS process: a running process may keep running or
terminate with some exit code; a terminated process keeps its exit code
forever (a crashed process stays crashed). -/
inductive ProcStep : ProcState → ProcState → Prop where
  | keepRunning : ProcStep .running .running
  | finish (c : Int) : ProcStep .running (.terminated c)
  | stayTerminated (c : Int) : ProcStep (.terminated c) (.terminated c)

/-- One step of a process entry: only the process state evolves (by
`ProcStep`); the cached `status` string may be rewritten (as `get_job`
does). -/
def ProcInfoStep (x y : ProcessInfo) : Prop :=
  y.nodeRank = x.nodeRank ∧ y.stdoutFile = x.stdoutFile ∧
  y.stderrFile = x.stderrFile ∧ ProcStep x.proc y.proc

/-- One step of a job record: all metadata is fixed, the processes step
pointwise (rank order is never changed), and the cached job status may be
rewritten. -/
def JobRecStep (x y : JobRecord) : Prop :=
  y.creationTimestamp = x.creationTimestamp ∧ y.runtimeName = x.runtimeName ∧
  y.image = x.image ∧ y.numNodes = x.numNodes ∧ y.framework = x.framework ∧
  y.jobDir = x.jobDir ∧ List.Forall₂ ProcInfoStep x.processes y.processes

/-- One step of the runner state: configuration and log registry fixed, the
job registry keeps its keys and each record steps by `JobRecStep`.  Both OS
scheduling steps and `get_job`'s cache write-backs are instances. -/
def RunnerStep (x y : RunnerState) : Prop :=
  y.workingDir = x.workingDir ∧ y.pythonExecutable = x.pythonExecutable ∧
  y.jobLogs = x.jobLogs ∧
  List.Forall₂ (fun p q => q.1 = p.1 ∧ JobRecStep p.2 q.2)
    x.activeJobs y.activeJobs

/-- How a step acts on one derived status string: `exited` and `failed` are
absorbing. -/
def StatusStep (s s' : String) : Prop :=
  (s = "exited" → s' = "exited") ∧ (s = "failed" → s' = "failed")

/-- Helper: `exited` is preserved by a process step. -/
lemma procStep_exited {p q : ProcState} (h : ProcStep p q)
    (he : getProcessStatus p = "exited") : getProcessStatus q = "exited" := by
  cases h with
  | keepRunning => simp [getProcessStatus] at he
  | finish c => simp [getProcessStatus] at he
  | stayTerminated c => exact he

/-- Helper: `failed` is preserved by a process step. -/
lemma procStep_failed {p q : ProcState} (h : ProcStep p q)
    (he : getProcessStatus p = "failed") : getProcessStatus q = "failed" := by
  cases h with
  | keepRunning => simp [getProcessStatus] at he
  | finish c => simp [getProcessStatus] at he
  | stayTerminated c => exact he

/-- Helper: pointwise process steps give pointwise status steps. -/
lemma statuses_step {ps qs : List ProcessInfo}
    (h : List.Forall₂ ProcInfoStep ps qs) :
    List.Forall₂ StatusStep
      (ps.map (fun x => getProcessStatus x.proc))
      (qs.map (fun x => getProcessStatus x.proc)) := by
  induction h with
  | nil => exact .nil
  | cons hpq htail ih =>
    exact .cons ⟨procStep_exited hpq.2.2.2, procStep_failed hpq.2.2.2⟩ ih

/-- The job status aggregation on a plain status list, in the source's branch
order (same branches as `getJobStatus` after mapping the containers to their
statuses). -/
def aggStatuses (ss : List String) : String :=
  if ss.isEmpty then "pending"
  else if ss.all (fun s => s == "exited") then "succeeded"
  else if ss.any (fun s => s == "failed") then "failed"
  else if ss.any (fun s => s == "running") then "running"
  else "pending"

/-- Helper: `getJobStatus` only looks at the container statuses. -/
lemma getJobStatus_eq_agg (cs : List Container) :
    getJobStatus cs = aggStatuses (cs.map (fun c => c.status)) := by
  cases cs with
  | nil => rfl
  | cons c cs' => rfl

/-- Helper: the statuses of `containersOf` are the polled process statuses. -/
lemma containersOf_statuses (jobName : String) (ps : List ProcessInfo) :
    (containersOf jobName ps).map (fun c => c.status) =
      ps.map (fun x => getProcessStatus x.proc) := by
  calc (containersOf jobName ps).map (fun c => c.status)
      = ps.enum.map ((fun x : ProcessInfo => getProcessStatus x.proc) ∘
          Prod.snd) := by
        unfold containersOf
        rw [List.map_map]
        rfl
    _ = (ps.enum.map Prod.snd).map (fun x => getProcessStatus x.proc) := by
        rw [List.map_map]
    _ = ps.map (fun x => getProcessStatus x.proc) := by
        rw [List.enum_map_snd]

/-- Helper: the status `get_job` derives for a record. -/
lemma derivedJobStatus_eq (jobName : String) (ps : List ProcessInfo) :
    getJobStatus (containersOf jobName ps) =
      aggStatuses (ps.map (fun x => getProcessStatus x.proc)) := by
  rw [getJobStatus_eq_agg, containersOf_statuses]

/-- Helper: a list with a failed member is not all-exited. -/
lemma all_exited_false_of_any_failed {ss : List String}
    (h : ss.any (fun s => s == "failed") = true) :
    ss.all (fun s => s == "exited") = false := by
  rcases List.any_eq_true.mp h with ⟨s, hs, hbeq⟩
  have hsf : s = "failed" := by simpa using hbeq
  apply Bool.eq_false_iff.mpr
  intro hall
  have hse := List.all_eq_true.mp hall s hs
  rw [hsf] at hse
  simp at hse

/-- Helper: all-exited is preserved by pointwise status steps. -/
lemma all_exited_step {ss ss' : List String}
    (h : List.Forall₂ StatusStep ss ss')
    (hall : ss.all (fun s => s == "exited") = true) :
    ss'.all (fun s => s == "exited") = true := by
  induction h with
  | nil => rfl
  | cons hpq htail ih =>
    simp only [List.all_cons, Bool.and_eq_true] at hall ⊢
    exact ⟨by simpa using hpq.1 (by simpa using hall.1), ih hall.2⟩

/-- Helper: any-failed is preserved by pointwise status steps. -/
lemma any_failed_step {ss ss' : List String}
    (h : List.Forall₂ StatusStep ss ss') :
    ss.any (fun s => s == "failed") = true →
      ss'.any (fun s => s == "failed") = true := by
  induction h with
  | nil => intro hany; simp at hany
  | cons hpq htail ih =>
    intro hany
    simp only [List.any_cons, Bool.or_eq_true] at hany ⊢
    rcases hany with h1 | h1
    · exact Or.inl (by simpa using hpq.2 (by simpa using h1))
    · exact Or.inr (ih h1)

/-- Helper: `succeeded` characterised on the aggregation. -/
lemma agg_succeeded_iff (ss : List String) :
    aggStatuses ss = "succeeded" ↔
      ss ≠ [] ∧ ss.all (fun s => s == "exited") = true := by
  unfold aggStatuses
  by_cases he : ss.isEmpty = true
  · rw [if_pos he]
    have h0 : ss = [] := List.isEmpty_iff.mp he
    simp [h0]
  · rw [if_neg he]
    have hne : ss ≠ [] := by
      intro h0
      exact he (by simp [h0])
    by_cases hall : ss.all (fun s => s == "exited") = true
    · simp [hall, hne]
    · rw [if_neg hall]
      by_cases hf : ss.any (fun s => s == "failed") = true
      · rw [if_pos hf]
        exact iff_of_false (by decide) (by simp [hall])
      · rw [if_neg hf]
        by_cases hr : ss.any (fun s => s == "running") = true
        · rw [if_pos hr]
          exact iff_of_false (by decide) (by simp [hall])
        · rw [if_neg hr]
          exact iff_of_false (by decide) (by simp [hall])

/-- Helper: `failed` characterised on the aggregation. -/
lemma agg_failed_iff (ss : List String) :
    aggStatuses ss = "failed" ↔
      ss ≠ [] ∧ ss.any (fun s => s == "failed") = true := by
  unfold aggStatuses
  by_cases he : ss.isEmpty = true
  · rw [if_pos he]
    have h0 : ss = [] := List.isEmpty_iff.mp he
    simp [h0]
  · rw [if_neg he]
    have hne : ss ≠ [] := by
      intro h0
      exact he (by simp [h0])
    by_cases hall : ss.all (fun s => s == "exited") = true
    · rw [if_pos hall]
      refine iff_of_false (by decide) ?_
      rintro ⟨-, hany⟩
      rw [all_exited_false_of_any_failed hany] at hall
      exact Bool.false_ne_true hall
    · rw [if_neg hall]
      by_cases hf : ss.any (fun s => s == "failed") = true
      · rw [if_pos hf]
        simp [hf, hne]
      · rw [if_neg hf]
        by_cases hr : ss.any (fun s => s == "running") = true
        · rw [if_pos hr]
          exact iff_of_false (by decide) (by simp [hf])
        · rw [if_neg hr]
          exact iff_of_false (by decide) (by simp [hf])

/-- Helper: a terminal aggregated status is preserved by pointwise status
steps. -/
lemma agg_terminal_step {ss ss' : List String}
    (h : List.Forall₂ StatusStep ss ss')
    (hterm : aggStatuses ss = "succeeded" ∨ aggStatuses ss = "failed") :
    aggStatuses ss' = aggStatuses ss := by
  have hlen := List.Forall₂.length_eq h
  rcases hterm with hs | hs
  · rw [hs]
    obtain ⟨hne, hall⟩ := (agg_succeeded_iff ss).mp hs
    refine (agg_succeeded_iff ss').mpr ⟨?_, all_exited_step h hall⟩
    intro h0
    apply hne
    rw [h0] at hlen
    exact List.length_eq_zero.mp hlen
  · rw [hs]
    obtain ⟨hne, hany⟩ := (agg_failed_iff ss).mp hs
    refine (agg_failed_iff ss').mpr ⟨?_, any_failed_step h hany⟩
    intro h0
    apply hne
    rw [h0] at hlen
    exact List.length_eq_zero.mp hlen

/-- Helper: a terminal derived job status is preserved by a record step. -/
lemma jobRec_status_step (jobName : String) {x y : JobRecord}
    (h : JobRecStep x y)
    (hterm : getJobStatus (containersOf jobName x.processes) = "succeeded" ∨
      getJobStatus (containersOf jobName x.processes) = "failed") :
    getJobStatus (containersOf jobName y.processes) =
      getJobStatus (containersOf jobName x.processes) := by
  have hst := statuses_step h.2.2.2.2.2.2
  rw [derivedJobStatus_eq] at hterm ⊢
  rw [derivedJobStatus_eq]
  exact agg_terminal_step hst hterm

/-- Helper: a keyed pointwise relation on registries transports lookups. -/
lemma dictGet_forall2 {α : Type} {R : α → α → Prop}
    {d d' : List (String × α)}
    (h : List.Forall₂ (fun p q => q.1 = p.1 ∧ R p.2 q.2) d d')
    (key : String) :
    (dictGet d key = none → dictGet d' key = none) ∧
    (∀ v, dictGet d key = some v →
      ∃ v', dictGet d' key = some v' ∧ R v v') := by
  induction h with
  | nil => exact ⟨fun _ => rfl, fun v hv => by simp [dictGet] at hv⟩
  | cons h1 h2 ih =>
    rename_i a b l1 l2
    obtain ⟨k, va⟩ := a
    obtain ⟨k2, vb⟩ := b
    obtain ⟨hk, hrec⟩ := h1
    simp only at hk
    constructor
    · intro hnone
      cases hget : dictGet l1 key with
      | some w =>
        simp only [dictGet, hget] at hnone
        exact Option.noConfusion hnone
      | none =>
        simp only [dictGet, hget] at hnone
        simp only [dictGet, ih.1 hget, hk]
        by_cases hbk : (k == key) = true
        · rw [if_pos hbk] at hnone
          exact Option.noConfusion hnone
        · rw [if_neg hbk] at hnone ⊢
    · intro v hv
      cases hget : dictGet l1 key with
      | some w =>
        simp only [dictGet, hget, Option.some.injEq] at hv
        obtain ⟨w', hw', hrecw⟩ := ih.2 w hget
        refine ⟨w', ?_, by rw [← hv]; exact hrecw⟩
        simp only [dictGet, hw']
      | none =>
        simp only [dictGet, hget] at hv
        by_cases hbk : (k == key) = true
        · rw [if_pos hbk] at hv
          simp only [Option.some.injEq] at hv
          refine ⟨vb, ?_, by rw [← hv]; exact hrec⟩
          simp only [dictGet, ih.1 hget, hk, if_pos hbk]
        · rw [if_neg hbk] at hv
          exact Option.noConfusion hv

/-- C9. Job status is monotonic: once `get_job` observes `succeeded` or
`failed` for a job, then after any sequence of steps (each process either
keeps running, terminates once, or stays terminated — a terminated process
never runs again), `get_job` observes the same terminal status, never
`running` or `pending`. -/
theorem job_status_monotonic (st st' : RunnerState) (jobName : String)
    (job : ContainerJob) (st1 : RunnerState)
    (hget : getJob st jobName = .ok (job, st1))
    (hterm : job.status = "succeeded" ∨ job.status = "failed")
    (hsteps : Relation.ReflTransGen RunnerStep st st') :
    ∃ job' st1', getJob st' jobName = .ok (job', st1') ∧
      job'.status = job.status := by
  cases hd : dictGet st.activeJobs jobName with
  | none => simp [getJob, hd] at hget
  | some jobInfo =>
    have hstat : job.status =
        getJobStatus (containersOf jobName jobInfo.processes) := by
      simp only [getJob, hd] at hget
      have hc := congrArg
        (fun x : Except RunnerError (ContainerJob × RunnerState) =>
          match x with
          | .ok pr => pr.1.status
          | .error _ => "") hget
      simp only at hc
      exact hc.symm
    have hinv : ∃ jobInfo', dictGet st'.activeJobs jobName = some jobInfo' ∧
        getJobStatus (containersOf jobName jobInfo'.processes) =
          job.status := by
      induction hsteps with
      | refl => exact ⟨jobInfo, hd, hstat.symm⟩
      | tail hab hbc ih =>
        obtain ⟨ji, hji, hjs⟩ := ih
        obtain ⟨-, -, -, hforall⟩ := hbc
        obtain ⟨ji', hji', hrec⟩ := (dictGet_forall2 hforall jobName).2 ji hji
        refine ⟨ji', hji', ?_⟩
        rw [← hjs]
        apply jobRec_status_step jobName hrec
        rw [hjs]
        exact hterm
    obtain ⟨jobInfo', hd', hstat'⟩ := hinv
    refine ⟨{ name := jobName,
              creationTimestamp := jobInfo'.creationTimestamp,
              runtimeName := jobInfo'.runtimeName,
              containers := containersOf jobName jobInfo'.processes,
              status := getJobStatus (containersOf jobName jobInfo'.processes) },
            { st' with activeJobs := (dictSet st'.activeJobs jobName
                ({ jobInfo' with
                   processes := jobInfo'.processes.map (fun x =>
                     { x with status := getProcessStatus x.proc }),
                   status :=
                     getJobStatus (containersOf jobName jobInfo'.processes) })) },
            ?_, hstat'⟩
    simp only [getJob, hd']

/-- A sample registered job whose single process failed (exit code 1). -/
def sampleFailedProcess : ProcessInfo :=
  { proc := .terminated 1, nodeRank := 0,
    stdoutFile := "/w/local-f/node-0-stdout.log",
    stderrFile := "/w/local-f/node-0-stderr.log",
    status := "Running" }

def sampleFailedJob : JobRecord :=
  { creationTimestamp := 0, runtimeName := "rt", image := "img",
    processes := [sampleFailedProcess], numNodes := 1, framework := .torch,
    jobDir := "/w/local-f", status := "Running" }

def sampleFailedState : RunnerState :=
  { workingDir := "/w", pythonExecutable := "python",
    activeJobs := [("local-f", sampleFailedJob)],
    jobLogs := [("local-f", [])] }

/-- The job a successful `get_job` on the failed sample returns. -/
def sampleFailedGetFst : ContainerJob :=
  match getJob sampleFailedState "local-f" with
  | .ok (job, _) => job
  | .error _ =>
    { name := "", creationTimestamp := 0, runtimeName := "",
      containers := [], status := "" }

/-- The state a successful `get_job` on the failed sample returns. -/
def sampleFailedGetSnd : RunnerState :=
  match getJob sampleFailedState "local-f" with
  | .ok (_, st') => st'
  | .error _ => sampleFailedState

/-- Witness for C9: a failed one-node job, observed twice with no step in
between. -/
theorem job_status_monotonic_witness :
    ∃ job' st1', getJob sampleFailedState "local-f" = .ok (job', st1') ∧
      job'.status = sampleFailedGetFst.status :=
  job_status_monotonic sampleFailedState sampleFailedState "local-f"
    sampleFailedGetFst sampleFailedGetSnd rfl (Or.inr rfl)
    Relation.ReflTransGen.refl
